import Mathlib

/-!
Verification of the `rotation` package (rotating log writer).

The Go source manipulates files at the target path `path` and at the backup
paths `path-1`, `path-2`, ... (built with `fmt.Sprintf("%s-%d", path, i)`).
For a single Rotator these strings are pairwise distinct, so we abstract the
file namespace into an inductive type `FPath`: the live file and the numbered
backups. The filesystem is an association list from `FPath` to file contents
(a list of bytes); directories are not modeled, only the fallibility of
`os.MkdirAll` is.

Failures of the underlying OS calls (stat, mkdir, create, open, close,
remove, rename, write) are injected through a fault oracle `Faults` passed to
each operation; a "file does not exist" outcome is not a fault but is
determined by the filesystem contents, matching the `os.IsNotExist` tests in
the source. `noFaults` is the oracle under which every OS call succeeds.

Sizes are `Int` (Go `int64`/`int`; no claim involves values near overflow).
-/

/-- The file namespace of one Rotator: the live file at `path`, and the
backup `path-i` for each `i`. -/
inductive FPath where
  | live : FPath
  | backup : Nat → FPath
deriving DecidableEq

/-- File contents: a sequence of bytes. -/
abbrev File := List Nat

/-- The filesystem: an association list from paths to contents. -/
abbrev FS := List (FPath × File)

/-- Look up the contents of path `p`; `none` means the file does not exist. -/
def FS.lookup : FS → FPath → Option File
  | [], _ => none
  | (q, c) :: rest, p => if p = q then some c else FS.lookup rest p

/-- Remove every entry for path `p`. -/
def FS.erase : FS → FPath → FS
  | [], _ => []
  | (q, c) :: rest, p => if p = q then FS.erase rest p else (q, c) :: FS.erase rest p

/-- Set the contents of path `p` to `c` (creating or truncating). -/
def FS.set (fs : FS) (p : FPath) (c : File) : FS := (p, c) :: FS.erase fs p

/-- Semantics of `os.Rename(src, dst)` on a filesystem: move the contents of `src` to
`dst`, overwriting `dst`; when `src` does not exist nothing changes (the
caller sees an `IsNotExist` error, which the source tolerates). -/
def FS.rename (fs : FS) (src dst : FPath) : FS :=
  match FS.lookup fs src with
  | none => fs
  | some c => FS.set (FS.erase fs src) dst c

/-- Append bytes `b` to the file at `p` through an open handle. -/
def FS.append (fs : FS) (p : FPath) (b : File) : FS :=
  match FS.lookup fs p with
  | none => FS.set fs p b
  | some c => FS.set fs p (c ++ b)

/-- The errors the package can return (each one is `errs.Wrap` of the
corresponding OS error); `renameE i` is a failure of the rename targeting
`path-i`. -/
inductive Err where
  | statE : Err
  | mkdirE : Err
  | createWE : Err
  | openE : Err
  | closeE : Err
  | removeE : Err
  | renameE : Nat → Err
  | createRE : Err
  | writeE : Err
deriving DecidableEq

/-- Fault oracle: which OS calls of the current operation fail with an error
other than "does not exist". `writeFault = some k` means `file.Write`
reports `min k (len b)` bytes written together with an error. -/
structure Faults where
  statErr : Bool := false
  mkdirErr : Bool := false
  createErrW : Bool := false
  openErr : Bool := false
  closeErr : Bool := false
  removeErr : Bool := false
  renameErrs : List Nat := []
  createErrR : Bool := false
  writeFault : Option Nat := none
deriving DecidableEq

/-- The oracle under which every OS call succeeds. -/
def noFaults : Faults := {}

/-- The mutable state of a `Rotator` (the lock serializes all operations, so
the embedding is sequential): configuration `maxSize`, `maxBackups`, whether
`r.file` is non-nil, and the running byte count `r.size`. -/
structure RState where
  maxSize : Int
  maxBackups : Int
  fileOpen : Bool
  size : Int
deriving DecidableEq

/-- Semantics of `os.Remove(p)` with tolerated not-exist, as used twice in `rotate`:
`if err := os.Remove(p); err != nil && !os.IsNotExist(err) { return wrap }`. -/
def osRemove (fault : Bool) (e : Err) (p : FPath) (fs : FS) : Option Err × FS :=
  if fault then (some e, fs) else (none, FS.erase fs p)

/-- One rename of the rotation loop, targeting `path-i`:
`if err := os.Rename(oldPath, path-i); err != nil && !os.IsNotExist(err)`. -/
def osRename (fault : Bool) (i : Nat) (src : FPath) (fs : FS) : Option Err × FS :=
  if fault then (some (Err.renameE i), fs) else (none, FS.rename fs src (FPath.backup i))

/-- The rotation loop `for i := r.maxBackups; i > 0; i--`, renaming
`path-(i-1)` (or `path` when `i == 1`) to `path-i`; counts down from the
initial `i = maxBackups`. -/
def renameLoop (flt : Faults) : Nat → FS → Option Err × FS
  | 0, fs => (none, fs)
  | n + 1, fs =>
    let src := if n + 1 ≠ 1 then FPath.backup n else FPath.live
    match osRename (flt.renameErrs.contains (n + 1)) (n + 1) src fs with
    | (some e, fs') => (some e, fs')
    | (none, fs') => renameLoop flt n fs'

/-- Translation of `(*Rotator).rotate` (part_002 lines 93-128): close the open file (the
handle is cleared before the close result is examined), then either delete
`path` (`maxBackups < 1`) or delete `path-maxBackups` and run the rename
loop, then create a fresh file at `path`, install it and zero the size. -/
def rotateGo (flt : Faults) (r : RState) (fs : FS) : Option Err × RState × FS :=
  let r1 : RState := { r with fileOpen := false }
  if r.fileOpen && flt.closeErr then
    (some Err.closeE, r1, fs)
  else
    let step2 : Option Err × FS :=
      if r.maxBackups < 1 then
        osRemove flt.removeErr Err.removeE FPath.live fs
      else
        match osRemove flt.removeErr Err.removeE (FPath.backup r.maxBackups.toNat) fs with
        | (some e, fs') => (some e, fs')
        | (none, fs') => renameLoop flt r.maxBackups.toNat fs'
    match step2 with
    | (some e, fs2) => (some e, r1, fs2)
    | (none, fs2) =>
      if flt.createErrR then (some Err.createRE, r1, fs2)
      else (none, { r with fileOpen := true, size := 0 }, FS.set fs2 FPath.live [])

/-- The lazy-open block of `Write` (part_002 lines 41-64): when no file is
open, stat the path; not-exist leads to mkdir-all + create with size 0, an
existing file is opened in append mode with size taken from the stat, and
any other stat error fails the call with no state change. -/
def openPhase (flt : Faults) (r : RState) (fs : FS) : Option Err × RState × FS :=
  if r.fileOpen then (none, r, fs)
  else if flt.statErr then (some Err.statE, r, fs)
  else
    match FS.lookup fs FPath.live with
    | none =>
      if flt.mkdirErr then (some Err.mkdirE, r, fs)
      else if flt.createErrW then (some Err.createWE, r, fs)
      else (none, { r with fileOpen := true, size := 0 }, FS.set fs FPath.live [])
    | some c =>
      if flt.openErr then (some Err.openE, r, fs)
      else (none, { r with fileOpen := true, size := (c.length : Int) }, fs)

/-- The final block of `Write` (part_002 lines 71-76):
`n, err := r.file.Write(b); r.size += int64(n); return n, err` with the
error wrapped; a faulted write reports a partial count together with the
error. -/
def writeStep (flt : Faults) (r : RState) (fs : FS) (b : File) : Nat × Option Err × RState × FS :=
  let n : Nat :=
    match flt.writeFault with
    | none => b.length
    | some k => min k b.length
  let werr : Option Err :=
    match flt.writeFault with
    | none => none
    | some _ => some Err.writeE
  (n, werr, { r with size := r.size + (n : Int) }, FS.append fs FPath.live (List.take n b))

/-- Translation of `(*Rotator).Write` (part_002 lines 38-77): lazily open, rotate when
`r.size + int64(len(b)) > r.maxSize`, then write. -/
def writeGo (flt : Faults) (r : RState) (fs : FS) (b : File) : Nat × Option Err × RState × FS :=
  match openPhase flt r fs with
  | (some e, r1, fs1) => (0, some e, r1, fs1)
  | (none, r1, fs1) =>
    if r1.size + (b.length : Int) > r1.maxSize then
      match rotateGo flt r1 fs1 with
      | (some e, r2, fs2) => (0, some e, r2, fs2)
      | (none, r2, fs2) => writeStep flt r2 fs2 b
    else writeStep flt r1 fs1 b

/-- Translation of `(*Rotator).Close` (part_002 lines 80-91): when a file is open, clear
the handle field first and then close the captured handle, wrapping a close
failure; otherwise a no-op success. No filesystem entry is touched. -/
def closeGo (flt : Faults) (r : RState) (fs : FS) : Option Err × RState × FS :=
  if r.fileOpen then
    let r1 : RState := { r with fileOpen := false }
    if flt.closeErr then (some Err.closeE, r1, fs) else (none, r1, fs)
  else (none, r, fs)

/-- The public operations of the Rotator, for reachability statements. -/
inductive Op where
  | write : File → Op
  | rot : Op
  | close : Op

/-- Run one fault-free operation on a (rotator state, filesystem) pair. -/
def runOp (o : Op) (s : RState × FS) : RState × FS :=
  match o with
  | Op.write b => ((writeGo noFaults s.1 s.2 b).2.2.1, (writeGo noFaults s.1 s.2 b).2.2.2)
  | Op.rot => ((rotateGo noFaults s.1 s.2).2.1, (rotateGo noFaults s.1 s.2).2.2)
  | Op.close => ((closeGo noFaults s.1 s.2).2.1, (closeGo noFaults s.1 s.2).2.2)

/-- Run a sequence of fault-free operations. -/
def run : List Op → RState × FS → RState × FS
  | [], s => s
  | o :: ops, s => run ops (runOp o s)

/-! ### Filesystem lemmas -/

theorem FS.lookup_erase_self (fs : FS) (p : FPath) : FS.lookup (FS.erase fs p) p = none := by
  induction fs with
  | nil => rfl
  | cons hd tl ih =>
    obtain ⟨q, c⟩ := hd
    by_cases h : p = q
    · subst h; simp [FS.erase, ih]
    · simp [FS.erase, FS.lookup, h, ih]

theorem FS.lookup_erase_ne (fs : FS) (p q : FPath) (h : q ≠ p) :
    FS.lookup (FS.erase fs p) q = FS.lookup fs q := by
  induction fs with
  | nil => rfl
  | cons hd tl ih =>
    obtain ⟨q', c⟩ := hd
    by_cases h1 : p = q'
    · subst h1
      simp [FS.erase, FS.lookup, h, ih]
    · by_cases h2 : q = q' <;> simp [FS.erase, FS.lookup, h1, h2, ih]

theorem FS.lookup_set_self (fs : FS) (p : FPath) (c : File) :
    FS.lookup (FS.set fs p c) p = some c := by
  simp [FS.set, FS.lookup]

theorem FS.lookup_set_ne (fs : FS) (p q : FPath) (c : File) (h : q ≠ p) :
    FS.lookup (FS.set fs p c) q = FS.lookup fs q := by
  simp [FS.set, FS.lookup, h, FS.lookup_erase_ne fs p q h]

theorem FS.rename_of_none (fs : FS) (src dst : FPath) (h : FS.lookup fs src = none) :
    FS.rename fs src dst = fs := by
  simp [FS.rename, h]

theorem FS.lookup_rename_ne (fs : FS) (src dst q : FPath) (h1 : q ≠ src) (h2 : q ≠ dst) :
    FS.lookup (FS.rename fs src dst) q = FS.lookup fs q := by
  unfold FS.rename
  cases hs : FS.lookup fs src with
  | none => rfl
  | some c => rw [FS.lookup_set_ne _ _ _ _ h2, FS.lookup_erase_ne _ _ _ h1]

theorem FS.lookup_rename_dst_of_some (fs : FS) (src dst : FPath) (c : File)
    (h : FS.lookup fs src = some c) :
    FS.lookup (FS.rename fs src dst) dst = some c := by
  simp [FS.rename, h, FS.lookup_set_self]

theorem FS.lookup_rename_src (fs : FS) (src dst : FPath) (h : src ≠ dst) :
    FS.lookup (FS.rename fs src dst) src = none := by
  unfold FS.rename
  cases hs : FS.lookup fs src with
  | none => exact hs
  | some c => rw [FS.lookup_set_ne _ _ _ _ h, FS.lookup_erase_self]

theorem FS.lookup_append_ne (fs : FS) (p q : FPath) (b : File) (h : q ≠ p) :
    FS.lookup (FS.append fs p b) q = FS.lookup fs q := by
  unfold FS.append
  cases hs : FS.lookup fs p with
  | none => rw [FS.lookup_set_ne _ _ _ _ h]
  | some c => rw [FS.lookup_set_ne _ _ _ _ h]

theorem FS.lookup_append_self_isSome (fs : FS) (p : FPath) (b : File) :
    (FS.lookup (FS.append fs p b) p).isSome = true := by
  unfold FS.append
  cases hs : FS.lookup fs p with
  | none => rw [FS.lookup_set_self]; rfl
  | some c => rw [FS.lookup_set_self]; rfl

/-! ### Claims about Close and the write step -/

/-- Claim C6: entering `rotate` with an open file clears the handle field
regardless of the close outcome; on a failed close, `rotate` returns that
error at once with the filesystem untouched and no file open, and on a
successful close it behaves exactly as from the handle-cleared state. -/
theorem c6_rotate_close_failure (flt : Faults) (r : RState) (fs : FS) (h : r.fileOpen = true) :
    (flt.closeErr = true →
      rotateGo flt r fs = (some Err.closeE, { r with fileOpen := false }, fs)) ∧
    (flt.closeErr = false →
      rotateGo flt r fs = rotateGo flt { r with fileOpen := false } fs) := by
  constructor <;> intro hc <;> simp [rotateGo, h, hc]

/-- Witness for C6 at a concrete state with a failing close. -/
theorem c6_witness :
    rotateGo { closeErr := true } { maxSize := 10, maxBackups := 2, fileOpen := true, size := 5 } [] =
      (some Err.closeE, { maxSize := 10, maxBackups := 2, fileOpen := false, size := 5 }, []) :=
  (c6_rotate_close_failure { closeErr := true }
    { maxSize := 10, maxBackups := 2, fileOpen := true, size := 5 } [] rfl).1 rfl

/-- Claim C8: a fault-free `Close` releases the handle if one exists, is a
no-op success when nothing is open, never touches the filesystem, and a
second close (under any fault oracle) again returns success with the
filesystem untouched. -/
theorem c8_close_idempotent (r : RState) (fs : FS) (flt2 : Faults) :
    closeGo noFaults r fs = (none, { r with fileOpen := false }, fs) ∧
    closeGo flt2 (closeGo noFaults r fs).2.1 (closeGo noFaults r fs).2.2 =
      (none, { r with fileOpen := false }, fs) := by
  cases hr : r.fileOpen
  · have he : ({ r with fileOpen := false } : RState) = r := by
      cases r; simp_all
    rw [he]
    simp [closeGo, noFaults, hr]
  · simp [closeGo, noFaults, hr]

/-- Claim C10: `Close` clears the stored handle before invoking the
underlying close, so even when the close fails the Rotator is left with no
open file, the error is surfaced, the filesystem is untouched, and a second
close under any fault oracle returns success. -/
theorem c10_close_clears_handle (flt flt2 : Faults) (r : RState) (fs : FS)
    (h : r.fileOpen = true) :
    closeGo flt r fs =
      ((if flt.closeErr then some Err.closeE else none), { r with fileOpen := false }, fs) ∧
    closeGo flt2 { r with fileOpen := false } fs = (none, { r with fileOpen := false }, fs) := by
  constructor
  · cases hc : flt.closeErr <;> simp [closeGo, h, hc]
  · simp [closeGo]

/-- Witness for C10 at a concrete state with a failing close. -/
theorem c10_witness :
    closeGo { closeErr := true } { maxSize := 10, maxBackups := 2, fileOpen := true, size := 5 } [] =
      (some Err.closeE, { maxSize := 10, maxBackups := 2, fileOpen := false, size := 5 }, []) ∧
    closeGo { closeErr := true }
        { maxSize := 10, maxBackups := 2, fileOpen := false, size := 5 } [] =
      (none, { maxSize := 10, maxBackups := 2, fileOpen := false, size := 5 }, []) := by
  have h := c10_close_clears_handle { closeErr := true } { closeErr := true }
    { maxSize := 10, maxBackups := 2, fileOpen := true, size := 5 } [] rfl
  exact ⟨h.1, h.2⟩

/-- Claim C4: the underlying-write block adds the actual count `n` to
`currentSize` and returns it, both on success (full count, no error) and on
failure (partial count still added, wrapped error surfaced); exactly the
first `n` incoming bytes land in the live file. -/
theorem c4_write_accounting (flt : Faults) (r : RState) (fs : FS) (b : File) :
    ((writeStep flt r fs b).2.2.1.size = r.size + ((writeStep flt r fs b).1 : Int)) ∧
    (flt.writeFault = none →
      (writeStep flt r fs b).1 = b.length ∧ (writeStep flt r fs b).2.1 = none) ∧
    (∀ k, flt.writeFault = some k →
      (writeStep flt r fs b).1 = min k b.length ∧
      (writeStep flt r fs b).2.1 = some Err.writeE) ∧
    ((writeStep flt r fs b).2.2.2 =
      FS.append fs FPath.live (List.take (writeStep flt r fs b).1 b)) := by
  refine ⟨?_, ?_, ?_, ?_⟩
  · cases hw : flt.writeFault <;> simp [writeStep, hw]
  · intro hw; simp [writeStep, hw]
  · intro k hw; simp [writeStep, hw]
  · cases hw : flt.writeFault <;> simp [writeStep, hw]

/-- Witness for C4: a faulted write of a 2-byte payload reports 1 byte,
adds 1 to the size and surfaces the write error. -/
theorem c4_witness :
    (writeStep { writeFault := some 1 } { maxSize := 10, maxBackups := 2, fileOpen := true, size := 5 } [] [8, 9]).1 = min 1 2 ∧
    (writeStep { writeFault := some 1 } { maxSize := 10, maxBackups := 2, fileOpen := true, size := 5 } [] [8, 9]).2.1 = some Err.writeE :=
  (c4_write_accounting { writeFault := some 1 }
    { maxSize := 10, maxBackups := 2, fileOpen := true, size := 5 } [] [8, 9]).2.2.1 1 rfl

/-! ### Claims about the Write path -/

/-- Claim C2: after a successful lazy open, rotation happens exactly when
`size + len(b) > maxSize`; when it does not, the call is just the write step
(backups untouched), and when rotation fails, the call returns the rotation
error with count 0 and the rotation's filesystem, which never contains the
incoming bytes (it is computed without them). -/
theorem c2_rotation_condition (flt : Faults) (r : RState) (fs : FS) (b : File)
    (r1 : RState) (fs1 : FS) (hopen : openPhase flt r fs = (none, r1, fs1)) :
    (r1.size + (b.length : Int) ≤ r1.maxSize →
      writeGo flt r fs b = writeStep flt r1 fs1 b ∧
      (∀ i, FS.lookup (writeGo flt r fs b).2.2.2 (FPath.backup i) =
        FS.lookup fs1 (FPath.backup i))) ∧
    (r1.size + (b.length : Int) > r1.maxSize →
      (∀ e r2 fs2, rotateGo flt r1 fs1 = (some e, r2, fs2) →
        writeGo flt r fs b = (0, some e, r2, fs2)) ∧
      (∀ r2 fs2, rotateGo flt r1 fs1 = (none, r2, fs2) →
        writeGo flt r fs b = writeStep flt r2 fs2 b)) := by
  constructor
  · intro hle
    have hw : writeGo flt r fs b = writeStep flt r1 fs1 b := by
      simp [writeGo, hopen, not_lt.mpr hle]
    refine ⟨hw, fun i => ?_⟩
    rw [hw]
    simp only [writeStep]
    exact FS.lookup_append_ne _ _ _ _ (by simp)
  · intro hgt
    constructor
    · intro e r2 fs2 hrot
      simp [writeGo, hopen, hgt, hrot]
    · intro r2 fs2 hrot
      simp [writeGo, hopen, hgt, hrot]

/-- Witness for C2: a write that must rotate, with a failing close inside
rotation, returns count 0 and the close error, leaving the bytes unwritten. -/
theorem c2_witness :
    writeGo { closeErr := true }
        { maxSize := 10, maxBackups := 2, fileOpen := true, size := 5 }
        [(FPath.live, [1])] [1, 2, 3, 4, 5, 6] =
      (0, some Err.closeE,
        { maxSize := 10, maxBackups := 2, fileOpen := false, size := 5 },
        [(FPath.live, [1])]) :=
  ((c2_rotation_condition { closeErr := true }
      { maxSize := 10, maxBackups := 2, fileOpen := true, size := 5 }
      [(FPath.live, [1])] [1, 2, 3, 4, 5, 6]
      { maxSize := 10, maxBackups := 2, fileOpen := true, size := 5 }
      [(FPath.live, [1])] (by decide)).2 (by decide)).1
    Err.closeE _ _ (by decide)

/-- Claim C3: a write with no open file stats the path: a stat fault makes
the call fail with the wrapped error, count 0 and no state change; a missing
file leads to mkdir-all and a fresh empty file with size 0; an existing file
is opened in append mode with size taken from the on-disk stat. -/
theorem c3_lazy_open (flt : Faults) (r : RState) (fs : FS) (b : File)
    (h : r.fileOpen = false) :
    (flt.statErr = true → writeGo flt r fs b = (0, some Err.statE, r, fs)) ∧
    (flt.statErr = false → flt.mkdirErr = false → flt.createErrW = false →
      FS.lookup fs FPath.live = none →
      openPhase flt r fs =
        (none, { r with fileOpen := true, size := 0 }, FS.set fs FPath.live [])) ∧
    (∀ c, flt.statErr = false → flt.openErr = false →
      FS.lookup fs FPath.live = some c →
      openPhase flt r fs =
        (none, { r with fileOpen := true, size := (c.length : Int) }, fs)) := by
  refine ⟨?_, ?_, ?_⟩
  · intro hs
    simp [writeGo, openPhase, h, hs]
  · intro hs hm hc hl
    simp [openPhase, h, hs, hm, hc, hl]
  · intro c hs ho hl
    simp [openPhase, h, hs, ho, hl]

/-- Witness for C3: a stat fault on a closed Rotator fails the write with
count 0 and unchanged state. -/
theorem c3_witness :
    writeGo { statErr := true }
        { maxSize := 10, maxBackups := 2, fileOpen := false, size := 0 }
        [(FPath.live, [1])] [7] =
      (0, some Err.statE,
        { maxSize := 10, maxBackups := 2, fileOpen := false, size := 0 },
        [(FPath.live, [1])]) :=
  (c3_lazy_open { statErr := true }
    { maxSize := 10, maxBackups := 2, fileOpen := false, size := 0 }
    [(FPath.live, [1])] [7] rfl).1 rfl

/-- Claim C7: with `maxBackups < 1`, a fault-free rotation just deletes the
file at `path` (a missing file is tolerated: the equation holds whether or
not `path` exists) and creates a fresh empty one; if no backups existed
before, afterwards the live file is freshly empty and no backups exist. -/
theorem c7_zero_backup_mode (r : RState) (fs : FS) (hN : r.maxBackups < 1)
    (hb : ∀ i, FS.lookup fs (FPath.backup i) = none) :
    rotateGo noFaults r fs =
      (none, { r with fileOpen := true, size := 0 },
        FS.set (FS.erase fs FPath.live) FPath.live []) ∧
    FS.lookup (rotateGo noFaults r fs).2.2 FPath.live = some [] ∧
    (∀ i, FS.lookup (rotateGo noFaults r fs).2.2 (FPath.backup i) = none) := by
  have heq : rotateGo noFaults r fs =
      (none, { r with fileOpen := true, size := 0 },
        FS.set (FS.erase fs FPath.live) FPath.live []) := by
    simp [rotateGo, osRemove, noFaults, hN]
  refine ⟨heq, ?_, ?_⟩
  · rw [heq]
    exact FS.lookup_set_self _ _ _
  · intro i
    rw [heq]
    have h1 : (FPath.backup i) ≠ FPath.live := by simp
    rw [FS.lookup_set_ne _ _ _ _ h1, FS.lookup_erase_ne _ _ _ h1]
    exact hb i

/-- Witness for C7 at a concrete zero-backup Rotator whose live file exists. -/
theorem c7_witness :
    rotateGo noFaults { maxSize := 10, maxBackups := 0, fileOpen := true, size := 5 }
        [(FPath.live, [1, 2])] =
      (none, { maxSize := 10, maxBackups := 0, fileOpen := true, size := 0 },
        [(FPath.live, [])]) ∧
    FS.lookup (rotateGo noFaults
        { maxSize := 10, maxBackups := 0, fileOpen := true, size := 5 }
        [(FPath.live, [1, 2])]).2.2 (FPath.backup 1) = none := by
  have h := c7_zero_backup_mode
    { maxSize := 10, maxBackups := 0, fileOpen := true, size := 5 }
    [(FPath.live, [1, 2])] (by decide) (fun i => by simp [FS.lookup])
  exact ⟨by simpa [FS.set, FS.erase] using h.1, h.2.2 1⟩

/-! ### The rename loop of a fault-free rotation -/

theorem renameLoop_noFaults_succ (m : Nat) (fs : FS) :
    renameLoop noFaults (m + 1) fs =
      renameLoop noFaults m
        (FS.rename fs (if m + 1 ≠ 1 then FPath.backup m else FPath.live)
          (FPath.backup (m + 1))) := by
  simp [renameLoop, osRename, noFaults]

theorem renameLoop_noFaults_err : ∀ (n : Nat) (fs : FS), (renameLoop noFaults n fs).1 = none
  | 0, _ => rfl
  | m + 1, fs => by
    rw [renameLoop_noFaults_succ]
    exact renameLoop_noFaults_err m _

theorem renameLoop_lookup_high : ∀ (n : Nat) (fs : FS) (j : Nat), n < j →
    FS.lookup (renameLoop noFaults n fs).2 (FPath.backup j) = FS.lookup fs (FPath.backup j)
  | 0, _, _, _ => rfl
  | m + 1, fs, j, hj => by
    rw [renameLoop_noFaults_succ, renameLoop_lookup_high m _ j (by omega)]
    apply FS.lookup_rename_ne
    · by_cases hm : m + 1 ≠ 1
      · rw [if_pos hm]
        simp only [ne_eq, FPath.backup.injEq]
        omega
      · rw [if_neg hm]
        simp
    · simp only [ne_eq, FPath.backup.injEq]
      omega

theorem renameLoop_lookup_zero : ∀ (n : Nat) (fs : FS),
    FS.lookup (renameLoop noFaults n fs).2 (FPath.backup 0) = FS.lookup fs (FPath.backup 0)
  | 0, _ => rfl
  | m + 1, fs => by
    rw [renameLoop_noFaults_succ, renameLoop_lookup_zero m _]
    apply FS.lookup_rename_ne
    · by_cases hm : m + 1 ≠ 1
      · rw [if_pos hm]
        simp only [ne_eq, FPath.backup.injEq]
        omega
      · rw [if_neg hm]
        simp
    · simp only [ne_eq, FPath.backup.injEq]
      omega

theorem renameLoop_lookup_live : ∀ (n : Nat) (fs : FS), 1 ≤ n →
    FS.lookup (renameLoop noFaults n fs).2 FPath.live = none
  | m + 1, fs, _ => by
    rw [renameLoop_noFaults_succ]
    by_cases hm : m = 0
    · subst hm
      have h2 : (if (0 : Nat) + 1 ≠ 1 then FPath.backup 0 else FPath.live) = FPath.live := by
        simp
      rw [h2]
      exact FS.lookup_rename_src _ _ _ (by simp)
    · exact renameLoop_lookup_live m _ (by omega)

theorem renameLoop_lookup_target : ∀ (n : Nat) (fs : FS),
    (1 ≤ n → FS.lookup fs (FPath.backup n) = none) →
    ∀ i, 1 ≤ i → i ≤ n →
    FS.lookup (renameLoop noFaults n fs).2 (FPath.backup i) =
      FS.lookup fs (if i = 1 then FPath.live else FPath.backup (i - 1))
  | 0, _, _, _, h1, h2 => absurd (Nat.le_trans h1 h2) (by omega)
  | m + 1, fs, htop, i, h1, h2 => by
    rw [renameLoop_noFaults_succ]
    by_cases hi : i = m + 1
    · subst hi
      rw [renameLoop_lookup_high m _ (m + 1) (by omega)]
      have hsrcs : (if m + 1 = 1 then FPath.live else FPath.backup (m + 1 - 1)) =
          (if m + 1 ≠ 1 then FPath.backup m else FPath.live) := by
        by_cases h : m + 1 = 1 <;> simp [h]
      rw [hsrcs]
      cases hs : FS.lookup fs (if m + 1 ≠ 1 then FPath.backup m else FPath.live) with
      | none =>
        rw [FS.rename_of_none _ _ _ hs, htop (by omega)]
      | some c =>
        rw [FS.lookup_rename_dst_of_some _ _ _ _ hs]
    · have hm1 : 1 ≤ m := by omega
      have hsrc : (if m + 1 ≠ 1 then FPath.backup m else FPath.live) = FPath.backup m :=
        if_pos (by omega)
      rw [hsrc]
      rw [renameLoop_lookup_target m (FS.rename fs (FPath.backup m) (FPath.backup (m + 1)))
        (fun _ => FS.lookup_rename_src _ _ _
          (by simp only [ne_eq, FPath.backup.injEq]; omega)) i h1 (by omega)]
      apply FS.lookup_rename_ne
      · by_cases h : i = 1
        · simp [h]
        · rw [if_neg h]
          simp only [ne_eq, FPath.backup.injEq]
          omega
      · by_cases h : i = 1
        · simp [h]
        · rw [if_neg h]
          simp only [ne_eq, FPath.backup.injEq]
          omega

/-! ### Claim C1: the rotation algorithm with maxBackups >= 1 -/

/-- A fault-free rotation with `maxBackups ≥ 1` unfolds to: remove
`path-maxBackups`, run the countdown rename loop, create a fresh live file. -/
theorem rotateGo_noFaults_pos_eq (r : RState) (fs : FS) (hN : 1 ≤ r.maxBackups) :
    rotateGo noFaults r fs =
      (none, { r with fileOpen := true, size := 0 },
        FS.set (renameLoop noFaults r.maxBackups.toNat
          (FS.erase fs (FPath.backup r.maxBackups.toNat))).2 FPath.live []) := by
  have hlt : ¬ r.maxBackups < 1 := by omega
  cases hre : renameLoop noFaults r.maxBackups.toNat
      (FS.erase fs (FPath.backup r.maxBackups.toNat)) with
  | mk e fs2 =>
    have he : e = none := by
      have h := renameLoop_noFaults_err r.maxBackups.toNat
        (FS.erase fs (FPath.backup r.maxBackups.toNat))
      rw [hre] at h
      exact h
    subst he
    have hre' := hre
    simp only [noFaults] at hre'
    simp [rotateGo, osRemove, noFaults, hlt, hre']

/-- Claim C1: for `maxBackups = N ≥ 1`, a fault-free `rotate` succeeds and
performs delete-oldest, the strictly decreasing rename chain, and fresh-file
creation: afterwards the handle is open with `currentSize = 0`, the live
file is empty, every backup slot `1 ≤ i ≤ N` holds exactly what its rename
source (`path` for `i = 1`, `path-(i-1)` otherwise) held before the call —
so no backup is overwritten before it has been moved — and slots beyond `N`
are untouched. -/
theorem c1_rotate_shifts_backups (r : RState) (fs : FS) (hN : 1 ≤ r.maxBackups) :
    (rotateGo noFaults r fs).1 = none ∧
    (rotateGo noFaults r fs).2.1 = { r with fileOpen := true, size := 0 } ∧
    FS.lookup (rotateGo noFaults r fs).2.2 FPath.live = some [] ∧
    (∀ i, 1 ≤ i → i ≤ r.maxBackups.toNat →
      FS.lookup (rotateGo noFaults r fs).2.2 (FPath.backup i) =
        FS.lookup fs (if i = 1 then FPath.live else FPath.backup (i - 1))) ∧
    (∀ j, r.maxBackups.toNat < j →
      FS.lookup (rotateGo noFaults r fs).2.2 (FPath.backup j) =
        FS.lookup fs (FPath.backup j)) := by
  have heq := rotateGo_noFaults_pos_eq r fs hN
  refine ⟨by rw [heq], by rw [heq], by rw [heq]; exact FS.lookup_set_self _ _ _, ?_, ?_⟩
  · intro i h1 h2
    rw [heq]
    rw [FS.lookup_set_ne _ _ _ _ (by simp)]
    rw [renameLoop_lookup_target r.maxBackups.toNat _
      (fun _ => FS.lookup_erase_self _ _) i h1 h2]
    by_cases h : i = 1
    · rw [if_pos h]
      exact FS.lookup_erase_ne _ _ _ (by simp)
    · rw [if_neg h]
      exact FS.lookup_erase_ne _ _ _ (by simp only [ne_eq, FPath.backup.injEq]; omega)
  · intro j hj
    rw [heq]
    rw [FS.lookup_set_ne _ _ _ _ (by simp)]
    rw [renameLoop_lookup_high r.maxBackups.toNat _ j hj]
    exact FS.lookup_erase_ne _ _ _ (by simp only [ne_eq, FPath.backup.injEq]; omega)

/-- Concrete Rotator state for the C1 witness. -/
def rEx1 : RState := { maxSize := 10, maxBackups := 2, fileOpen := true, size := 9 }

/-- Concrete filesystem for the C1 witness: a live file and two backups. -/
def fsEx1 : FS := [(FPath.live, [1]), (FPath.backup 1, [2]), (FPath.backup 2, [3])]

/-- Witness for C1: rotating `fsEx1` with `maxBackups = 2` drops the oldest
backup, shifts the live file into slot 1 and the old slot 1 into slot 2, and
leaves a fresh empty live file. -/
theorem c1_witness :
    (rotateGo noFaults rEx1 fsEx1).1 = none ∧
    FS.lookup (rotateGo noFaults rEx1 fsEx1).2.2 FPath.live = some [] ∧
    FS.lookup (rotateGo noFaults rEx1 fsEx1).2.2 (FPath.backup 1) = some [1] ∧
    FS.lookup (rotateGo noFaults rEx1 fsEx1).2.2 (FPath.backup 2) = some [2] ∧
    FS.lookup (rotateGo noFaults rEx1 fsEx1).2.2 (FPath.backup 3) = none := by
  have h := c1_rotate_shifts_backups rEx1 fsEx1 (by decide)
  refine ⟨h.1, h.2.2.1, ?_, ?_, ?_⟩
  · have h1 := h.2.2.2.1 1 (by decide) (by decide)
    rw [h1]; decide
  · have h2 := h.2.2.2.1 2 (by decide) (by decide)
    rw [h2]; decide
  · have h3 := h.2.2.2.2 3 (by decide)
    rw [h3]; decide

/-! ### The gap-free backup-chain invariant (Claim C5) -/

/-- The on-disk invariant of the backup chain for a Rotator with
`maxBackups.toNat = N`: no gaps below an existing backup, a backup in slot 1
only next to a live file, and nothing in slot 0 or beyond slot `N`. -/
def GapInv (N : Nat) (fs : FS) : Prop :=
  (∀ i, 2 ≤ i → (FS.lookup fs (FPath.backup i)).isSome = true →
    (FS.lookup fs (FPath.backup (i - 1))).isSome = true) ∧
  ((FS.lookup fs (FPath.backup 1)).isSome = true →
    (FS.lookup fs FPath.live).isSome = true) ∧
  (∀ j, j = 0 ∨ N < j → FS.lookup fs (FPath.backup j) = none)

theorem gapInv_set_live (N : Nat) (fs : FS) (c : File) (h : GapInv N fs) :
    GapInv N (FS.set fs FPath.live c) := by
  obtain ⟨h1, h2, h3⟩ := h
  refine ⟨?_, ?_, ?_⟩
  · intro i hi hs
    rw [FS.lookup_set_ne _ _ _ _ (by simp)] at hs ⊢
    exact h1 i hi hs
  · intro _
    rw [FS.lookup_set_self]
    rfl
  · intro j hj
    rw [FS.lookup_set_ne _ _ _ _ (by simp)]
    exact h3 j hj

theorem gapInv_append_live (N : Nat) (fs : FS) (b : File) (h : GapInv N fs) :
    GapInv N (FS.append fs FPath.live b) := by
  unfold FS.append
  cases hl : FS.lookup fs FPath.live with
  | none => exact gapInv_set_live N fs b h
  | some c => exact gapInv_set_live N fs (c ++ b) h

/-- A fault-free rotation with `maxBackups < 1` unfolds to: remove the live
file (not-exist tolerated) and create a fresh one. -/
theorem rotateGo_noFaults_lt_eq (r : RState) (fs : FS) (hN : r.maxBackups < 1) :
    rotateGo noFaults r fs =
      (none, { r with fileOpen := true, size := 0 },
        FS.set (FS.erase fs FPath.live) FPath.live []) := by
  simp [rotateGo, osRemove, noFaults, hN]

/-- A fault-free rotation always succeeds and leaves an open handle with
size 0 and unchanged configuration. -/
theorem rotate_noFaults_state (r : RState) (fs : FS) :
    (rotateGo noFaults r fs).1 = none ∧
    (rotateGo noFaults r fs).2.1 = { r with fileOpen := true, size := 0 } := by
  by_cases hN : r.maxBackups < 1
  · rw [rotateGo_noFaults_lt_eq r fs hN]
    exact ⟨rfl, rfl⟩
  · rw [rotateGo_noFaults_pos_eq r fs (by omega)]
    exact ⟨rfl, rfl⟩

theorem rotate_pos_lookup_live (r : RState) (fs : FS) (hN : 1 ≤ r.maxBackups) :
    FS.lookup (rotateGo noFaults r fs).2.2 FPath.live = some [] := by
  rw [rotateGo_noFaults_pos_eq r fs hN]
  exact FS.lookup_set_self _ _ _

theorem rotate_pos_lookup_backup (r : RState) (fs : FS) (hN : 1 ≤ r.maxBackups)
    (i : Nat) (h1 : 1 ≤ i) (h2 : i ≤ r.maxBackups.toNat) :
    FS.lookup (rotateGo noFaults r fs).2.2 (FPath.backup i) =
      FS.lookup fs (if i = 1 then FPath.live else FPath.backup (i - 1)) := by
  rw [rotateGo_noFaults_pos_eq r fs hN]
  rw [FS.lookup_set_ne _ _ _ _ (by simp)]
  rw [renameLoop_lookup_target _ _ (fun _ => FS.lookup_erase_self _ _) i h1 h2]
  by_cases h : i = 1
  · rw [if_pos h]
    exact FS.lookup_erase_ne _ _ _ (by simp)
  · rw [if_neg h]
    exact FS.lookup_erase_ne _ _ _ (by simp only [ne_eq, FPath.backup.injEq]; omega)

theorem rotate_pos_lookup_out (r : RState) (fs : FS) (hN : 1 ≤ r.maxBackups)
    (j : Nat) (hj : j = 0 ∨ r.maxBackups.toNat < j) :
    FS.lookup (rotateGo noFaults r fs).2.2 (FPath.backup j) =
      FS.lookup fs (FPath.backup j) := by
  have hNt : 1 ≤ r.maxBackups.toNat := by omega
  rw [rotateGo_noFaults_pos_eq r fs hN]
  rw [FS.lookup_set_ne _ _ _ _ (by simp)]
  cases hj with
  | inl h0 =>
    subst h0
    rw [renameLoop_lookup_zero]
    exact FS.lookup_erase_ne _ _ _ (by simp only [ne_eq, FPath.backup.injEq]; omega)
  | inr hgt =>
    rw [renameLoop_lookup_high _ _ j hgt]
    exact FS.lookup_erase_ne _ _ _ (by simp only [ne_eq, FPath.backup.injEq]; omega)

/-- A fault-free rotation preserves the gap-free backup-chain invariant. -/
theorem rotateGo_noFaults_gapInv (r : RState) (fs : FS)
    (h : GapInv r.maxBackups.toNat fs) :
    GapInv r.maxBackups.toNat (rotateGo noFaults r fs).2.2 := by
  obtain ⟨h1, h2, h3⟩ := h
  by_cases hN : r.maxBackups < 1
  · rw [rotateGo_noFaults_lt_eq r fs hN]
    refine ⟨?_, ?_, ?_⟩
    · intro i hi hs
      rw [FS.lookup_set_ne _ _ _ _ (by simp),
        FS.lookup_erase_ne _ _ _ (by simp)] at hs ⊢
      exact h1 i hi hs
    · intro _
      rw [FS.lookup_set_self]
      rfl
    · intro j hj
      rw [FS.lookup_set_ne _ _ _ _ (by simp), FS.lookup_erase_ne _ _ _ (by simp)]
      exact h3 j hj
  · have hN1 : 1 ≤ r.maxBackups := by omega
    refine ⟨?_, ?_, ?_⟩
    · intro i hi hs
      by_cases hle : i ≤ r.maxBackups.toNat
      · rw [rotate_pos_lookup_backup r fs hN1 i (by omega) hle,
          if_neg (by omega)] at hs
        rw [rotate_pos_lookup_backup r fs hN1 (i - 1) (by omega) (by omega)]
        by_cases hone : i - 1 = 1
        · rw [if_pos hone]
          rw [hone] at hs
          exact h2 hs
        · rw [if_neg hone]
          exact h1 (i - 1) (by omega) hs
      · rw [rotate_pos_lookup_out r fs hN1 i (Or.inr (by omega))] at hs
        rw [h3 i (Or.inr (by omega))] at hs
        simp at hs
    · intro _
      rw [rotate_pos_lookup_live r fs hN1]
      rfl
    · intro j hj
      rw [rotate_pos_lookup_out r fs hN1 j hj]
      exact h3 j hj

/-- A fault-free lazy open never fails, keeps the configuration, and
preserves the backup-chain invariant. -/
theorem openPhase_noFaults_spec (r : RState) (fs : FS) :
    (openPhase noFaults r fs).1 = none ∧
    (openPhase noFaults r fs).2.1.maxBackups = r.maxBackups ∧
    (openPhase noFaults r fs).2.1.maxSize = r.maxSize ∧
    ∀ N, GapInv N fs → GapInv N (openPhase noFaults r fs).2.2 := by
  by_cases hf : r.fileOpen
  · have he : openPhase noFaults r fs = (none, r, fs) := by
      simp [openPhase, hf]
    rw [he]
    exact ⟨rfl, rfl, rfl, fun N h => h⟩
  · cases hl : FS.lookup fs FPath.live with
    | none =>
      have he : openPhase noFaults r fs =
          (none, { r with fileOpen := true, size := 0 }, FS.set fs FPath.live []) := by
        simp [openPhase, hf, noFaults, hl]
      rw [he]
      exact ⟨rfl, rfl, rfl, fun N h => gapInv_set_live N fs [] h⟩
    | some c =>
      have he : openPhase noFaults r fs =
          (none, { r with fileOpen := true, size := (c.length : Int) }, fs) := by
        simp [openPhase, hf, noFaults, hl]
      rw [he]
      exact ⟨rfl, rfl, rfl, fun N h => h⟩

/-- The fault-free write step appends to the live file only, preserving the
backup chain. -/
theorem writeStep_noFaults_gapInv (N : Nat) (r : RState) (fs : FS) (b : File)
    (h : GapInv N fs) : GapInv N (writeStep noFaults r fs b).2.2.2 := by
  have he : (writeStep noFaults r fs b).2.2.2 =
      FS.append fs FPath.live (List.take b.length b) := rfl
  rw [he]
  exact gapInv_append_live N fs _ h

/-- A fault-free `Write` keeps `maxBackups` and preserves the backup-chain
invariant. -/
theorem writeGo_noFaults_inv (r : RState) (fs : FS) (b : File)
    (h : GapInv r.maxBackups.toNat fs) :
    GapInv r.maxBackups.toNat (writeGo noFaults r fs b).2.2.2 ∧
    (writeGo noFaults r fs b).2.2.1.maxBackups = r.maxBackups := by
  rcases hop : openPhase noFaults r fs with ⟨e1, r1, fs1⟩
  have hspec := openPhase_noFaults_spec r fs
  rw [hop] at hspec
  obtain ⟨he1, hmb, hms, hgap⟩ := hspec
  subst he1
  have hmb' : r1.maxBackups = r.maxBackups := hmb
  have hgap' : ∀ N, GapInv N fs → GapInv N fs1 := hgap
  have hg1 : GapInv r.maxBackups.toNat fs1 := hgap' _ h
  have hg1' : GapInv r1.maxBackups.toNat fs1 := by rw [hmb']; exact hg1
  simp only [writeGo, hop]
  by_cases hth : r1.size + (b.length : Int) > r1.maxSize
  · rw [if_pos hth]
    rcases hre : rotateGo noFaults r1 fs1 with ⟨e2, r2, fs2⟩
    have hrs := rotate_noFaults_state r1 fs1
    rw [hre] at hrs
    obtain ⟨he2, hr2⟩ := hrs
    subst he2
    have hr2' : r2 = { r1 with fileOpen := true, size := 0 } := hr2
    have hg2 : GapInv r1.maxBackups.toNat fs2 := by
      have hgr := rotateGo_noFaults_gapInv r1 fs1 hg1'
      rw [hre] at hgr
      exact hgr
    have hg2' : GapInv r.maxBackups.toNat fs2 := by rw [← hmb']; exact hg2
    constructor
    · exact writeStep_noFaults_gapInv _ r2 fs2 b hg2'
    · have he : (writeStep noFaults r2 fs2 b).2.2.1.maxBackups = r2.maxBackups := rfl
      rw [he, hr2']
      exact hmb'
  · rw [if_neg hth]
    constructor
    · exact writeStep_noFaults_gapInv _ r1 fs1 b hg1
    · have he : (writeStep noFaults r1 fs1 b).2.2.1.maxBackups = r1.maxBackups := rfl
      rw [he]
      exact hmb'

/-- The `Close` operation never touches the filesystem. -/
theorem closeGo_fs_unchanged (flt : Faults) (r : RState) (fs : FS) :
    (closeGo flt r fs).2.2 = fs := by
  by_cases hf : r.fileOpen
  · cases hc : flt.closeErr <;> simp [closeGo, hf, hc]
  · simp [closeGo, hf]

/-- The `Close` operation never touches the configuration. -/
theorem closeGo_maxBackups (flt : Faults) (r : RState) (fs : FS) :
    (closeGo flt r fs).2.1.maxBackups = r.maxBackups := by
  by_cases hf : r.fileOpen
  · cases hc : flt.closeErr <;> simp [closeGo, hf, hc]
  · simp [closeGo, hf]

/-- Every fault-free operation keeps `maxBackups` and preserves the
backup-chain invariant. -/
theorem runOp_gapInv (o : Op) (s : RState × FS)
    (h : GapInv s.1.maxBackups.toNat s.2) :
    GapInv s.1.maxBackups.toNat (runOp o s).2 ∧
    (runOp o s).1.maxBackups = s.1.maxBackups := by
  cases o with
  | write b =>
    exact ⟨(writeGo_noFaults_inv s.1 s.2 b h).1, (writeGo_noFaults_inv s.1 s.2 b h).2⟩
  | rot =>
    refine ⟨rotateGo_noFaults_gapInv s.1 s.2 h, ?_⟩
    show (rotateGo noFaults s.1 s.2).2.1.maxBackups = s.1.maxBackups
    have he := (rotate_noFaults_state s.1 s.2).2
    rw [he]
  | close =>
    refine ⟨?_, ?_⟩
    · show GapInv s.1.maxBackups.toNat (closeGo noFaults s.1 s.2).2.2
      rw [closeGo_fs_unchanged]
      exact h
    · show (closeGo noFaults s.1 s.2).2.1.maxBackups = s.1.maxBackups
      rw [closeGo_maxBackups]

/-- Any fault-free run keeps `maxBackups` and preserves the invariant. -/
theorem run_gapInv : ∀ (ops : List Op) (s : RState × FS),
    GapInv s.1.maxBackups.toNat s.2 →
    GapInv (run ops s).1.maxBackups.toNat (run ops s).2 ∧
    (run ops s).1.maxBackups = s.1.maxBackups
  | [], _, h => ⟨h, rfl⟩
  | o :: ops, s, h => by
    rw [run]
    have ho := runOp_gapInv o s h
    have ht := run_gapInv ops (runOp o s) (by rw [ho.2]; exact ho.1)
    exact ⟨ht.1, by rw [ht.2, ho.2]⟩

/-- A freshly constructed Rotator: nothing open, size 0. -/
def freshR (ms mb : Int) : RState :=
  { maxSize := ms, maxBackups := mb, fileOpen := false, size := 0 }

/-- Claim C5: starting from a fresh Rotator and an empty filesystem, in
every state reached by a fault-free sequence of write, rotate and close
operations the backups are gap-free (slot `i > 1` occupied forces slot
`i - 1` occupied) and every occupied slot lies in `1 … maxBackups`. -/
theorem c5_backup_chain_gap_free (ops : List Op) (ms mb : Int) :
    (∀ i, 1 < i →
      (FS.lookup (run ops (freshR ms mb, [])).2 (FPath.backup i)).isSome = true →
      (FS.lookup (run ops (freshR ms mb, [])).2 (FPath.backup (i - 1))).isSome = true) ∧
    (∀ j, (FS.lookup (run ops (freshR ms mb, [])).2 (FPath.backup j)).isSome = true →
      1 ≤ j ∧ (j : Int) ≤ mb) := by
  have h0 : GapInv (freshR ms mb).maxBackups.toNat ([] : FS) :=
    ⟨fun i _ hs => by simp [FS.lookup] at hs, fun hs => by simp [FS.lookup] at hs,
      fun j _ => rfl⟩
  have h := run_gapInv ops (freshR ms mb, []) h0
  obtain ⟨⟨h1, h2, h3⟩, hmb⟩ := h
  have hN : (run ops (freshR ms mb, ([] : FS))).1.maxBackups.toNat = mb.toNat := by
    rw [hmb]
    rfl
  constructor
  · intro i hi hs
    exact h1 i (by omega) hs
  · intro j hs
    have hnot : ¬(j = 0 ∨ mb.toNat < j) := by
      intro hj
      have hj' : j = 0 ∨
          (run ops (freshR ms mb, ([] : FS))).1.maxBackups.toNat < j := by
        rw [hN]
        exact hj
      rw [h3 j hj'] at hs
      simp at hs
    push_neg at hnot
    omega

/-- Witness for C5: after write-rotate-write-rotate with `maxBackups = 2`,
slot 2 is occupied and the theorem forces slot 1 to be occupied. -/
theorem c5_witness :
    (FS.lookup (run [Op.write [1], Op.rot, Op.write [2], Op.rot]
      (freshR 10 2, [])).2 (FPath.backup 1)).isSome = true :=
  (c5_backup_chain_gap_free [Op.write [1], Op.rot, Op.write [2], Op.rot] 10 2).1
    2 (by decide) (by decide)

/-! ### Claim C9: currentSize stays under maxSize -/

/-- After a successful lazy open the rest of `Write` behaves as a write on
the opened state. -/
theorem writeGo_noFaults_reopen (r : RState) (fs : FS) (b : File) (r1 : RState)
    (fs1 : FS) (hop : openPhase noFaults r fs = (none, r1, fs1))
    (h1 : r1.fileOpen = true) :
    writeGo noFaults r fs b = writeGo noFaults r1 fs1 b := by
  have hop1 : openPhase noFaults r1 fs1 = (none, r1, fs1) := by
    simp [openPhase, h1]
  simp only [writeGo, hop, hop1]

/-- A fault-free write on an open file with `0 ≤ size ≤ maxSize` and a
payload of at most `maxSize` bytes leaves `0 ≤ size ≤ maxSize`. -/
theorem writeGo_noFaults_size (r : RState) (fs : FS) (b : File)
    (hopen : r.fileOpen = true) (h0 : 0 ≤ r.size) (_h1 : r.size ≤ r.maxSize)
    (hb : (b.length : Int) ≤ r.maxSize) :
    (writeGo noFaults r fs b).2.2.1.fileOpen = true ∧
    0 ≤ (writeGo noFaults r fs b).2.2.1.size ∧
    (writeGo noFaults r fs b).2.2.1.size ≤ r.maxSize ∧
    (writeGo noFaults r fs b).2.2.1.maxSize = r.maxSize := by
  have hop : openPhase noFaults r fs = (none, r, fs) := by
    simp [openPhase, hopen]
  simp only [writeGo, hop]
  by_cases hth : r.size + (b.length : Int) > r.maxSize
  · rw [if_pos hth]
    rcases hre : rotateGo noFaults r fs with ⟨e2, r2, fs2⟩
    have hrs := rotate_noFaults_state r fs
    rw [hre] at hrs
    obtain ⟨he2, hr2⟩ := hrs
    subst he2
    have hr2' : r2 = { r with fileOpen := true, size := 0 } := hr2
    subst hr2'
    refine ⟨rfl, ?_, ?_, rfl⟩
    · show (0 : Int) ≤ 0 + (b.length : Int)
      omega
    · show (0 : Int) + (b.length : Int) ≤ r.maxSize
      omega
  · rw [if_neg hth]
    push_neg at hth
    refine ⟨?_, ?_, ?_, rfl⟩
    · show r.fileOpen = true
      exact hopen
    · show (0 : Int) ≤ r.size + (b.length : Int)
      omega
    · show r.size + (b.length : Int) ≤ r.maxSize
      exact hth

/-- A fault-free first write (no file open, live file absent or empty)
leaves `0 ≤ size ≤ maxSize` when the payload is at most `maxSize` bytes. -/
theorem writeGo_noFaults_first (r : RState) (fs : FS) (b : File)
    (hopen : r.fileOpen = false)
    (hlive : FS.lookup fs FPath.live = none ∨ FS.lookup fs FPath.live = some [])
    (hms : 0 < r.maxSize) (hb : (b.length : Int) ≤ r.maxSize) :
    (writeGo noFaults r fs b).2.2.1.fileOpen = true ∧
    0 ≤ (writeGo noFaults r fs b).2.2.1.size ∧
    (writeGo noFaults r fs b).2.2.1.size ≤ r.maxSize ∧
    (writeGo noFaults r fs b).2.2.1.maxSize = r.maxSize := by
  rcases hlive with hl | hl
  · have hop : openPhase noFaults r fs =
        (none, { r with fileOpen := true, size := 0 }, FS.set fs FPath.live []) := by
      simp [openPhase, hopen, noFaults, hl]
    rw [writeGo_noFaults_reopen r fs b _ _ hop rfl]
    exact writeGo_noFaults_size _ _ b rfl le_rfl (le_of_lt hms) hb
  · have hop : openPhase noFaults r fs =
        (none, { r with fileOpen := true, size := 0 }, fs) := by
      simp [openPhase, hopen, noFaults, hl]
    rw [writeGo_noFaults_reopen r fs b _ _ hop rfl]
    exact writeGo_noFaults_size _ _ b rfl le_rfl (le_of_lt hms) hb

/-- Chaining fault-free writes whose payloads are at most `maxSize` keeps
the running size at most `maxSize`. -/
theorem run_writes_size : ∀ (bs : List File) (r : RState) (fs : FS),
    r.fileOpen = true → 0 ≤ r.size → r.size ≤ r.maxSize →
    (∀ b ∈ bs, (b.length : Int) ≤ r.maxSize) →
    (run (bs.map Op.write) (r, fs)).1.size ≤ r.maxSize
  | [], _, _, _, _, h1, _ => h1
  | b :: bs, r, fs, hopen, h0, h1, hlen => by
    rw [List.map_cons, run]
    have hw := writeGo_noFaults_size r fs b hopen h0 h1
      (hlen b (List.mem_cons_self b bs))
    have hr : runOp (Op.write b) (r, fs) =
        ((writeGo noFaults r fs b).2.2.1, (writeGo noFaults r fs b).2.2.2) := rfl
    rw [hr]
    have ht := run_writes_size bs (writeGo noFaults r fs b).2.2.1
      (writeGo noFaults r fs b).2.2.2 hw.1 hw.2.1
      (by rw [hw.2.2.2]; exact hw.2.2.1)
      (fun b' hb' => by rw [hw.2.2.2]; exact hlen b' (List.mem_cons_of_mem b hb'))
    rw [hw.2.2.2] at ht
    exact ht

/-- Claim C9: with `maxSize > 0`, any sequence of fault-free writes, each of
payload length at most `maxSize`, starting from a fresh Rotator over an
absent or empty live file, ends with `currentSize ≤ maxSize`. -/
theorem c9_current_size_bounded (bs : List File) (ms mb : Int) (fs0 : FS)
    (hms : 0 < ms)
    (hlive : FS.lookup fs0 FPath.live = none ∨ FS.lookup fs0 FPath.live = some [])
    (hlen : ∀ b ∈ bs, (b.length : Int) ≤ ms) :
    (run (bs.map Op.write) (freshR ms mb, fs0)).1.size ≤ ms := by
  cases bs with
  | nil =>
    show (0 : Int) ≤ ms
    omega
  | cons b bs =>
    rw [List.map_cons, run]
    have hw := writeGo_noFaults_first (freshR ms mb) fs0 b rfl hlive hms
      (hlen b (List.mem_cons_self b bs))
    have hr : runOp (Op.write b) (freshR ms mb, fs0) =
        ((writeGo noFaults (freshR ms mb) fs0 b).2.2.1,
          (writeGo noFaults (freshR ms mb) fs0 b).2.2.2) := rfl
    rw [hr]
    have ht := run_writes_size bs (writeGo noFaults (freshR ms mb) fs0 b).2.2.1
      (writeGo noFaults (freshR ms mb) fs0 b).2.2.2 hw.1 hw.2.1
      (by rw [hw.2.2.2]; exact hw.2.2.1)
      (fun b' hb' => by rw [hw.2.2.2]; exact hlen b' (List.mem_cons_of_mem b hb'))
    rw [hw.2.2.2] at ht
    exact ht

/-- Witness for C9: two 6-byte writes against `maxSize = 10` (the second
forces a rotation) end with size at most 10. -/
theorem c9_witness :
    (run ([[1, 1, 1, 1, 1, 1], [1, 1, 1, 1, 1, 1]].map Op.write)
      (freshR 10 2, [])).1.size ≤ 10 :=
  c9_current_size_bounded [[1, 1, 1, 1, 1, 1], [1, 1, 1, 1, 1, 1]] 10 2 []
    (by decide) (Or.inl rfl) (by decide)
